/-
Verification of the inspection validation and lot-disposition engine of the
Calidad quality-control dashboard.

Shallow embedding of:
  - src/hooks/useInspection.ts          (static spec validator: calculateStatus,
    updateSpec, resetSpecs, aggregate queries)
  - src/unnamed/part_006 InspectorView  (lot disposition: handleApprove,
    handleReject, and the verdict-button rendering gate)
  - src/components/features/quality DynamicInspectionForm
    (validateNumericField, validateBooleanField, validateSelectField,
    updateValue)

TypeScript numbers are modelled as rationals (ℚ); `null` / absent values as
`Option`; the inspection status union "pending" | "pass" | "fail" as the
inductive `Status`.
-/
import Mathlib

/-- The per-characteristic inspection status: "pending" | "pass" | "fail". -/
inductive Status where
  | pending
  | pass
  | fail
deriving DecidableEq, Repr

/-- Static characteristic specification, from `InspectionSpec` in lib/data
(src/unnamed/part_008): id, characteristic, tool, min, max, actual, status. -/
structure InspectionSpec where
  id : Int
  characteristic : String
  tool : String
  min : ℚ
  max : ℚ
  actual : Option ℚ
  status : Status
deriving DecidableEq, Repr

/-- Function `calculateStatus` from src/hooks/useInspection.ts lines 49-56:
`if (actual === null) return "pending"; return actual >= min && actual <= max ?
"pass" : "fail"`. -/
def calculateStatus (actual : Option ℚ) (min max : ℚ) : Status :=
  match actual with
  | none => Status.pending
  | some a => if min ≤ a ∧ a ≤ max then Status.pass else Status.fail

/-- The entry replacement of `updateSpec` (useInspection.ts line 90):
`{ ...spec, actual, status }` with the status recomputed. -/
def applySpecValue (actual : Option ℚ) (spec : InspectionSpec) : InspectionSpec :=
  { spec with actual := actual
              status := calculateStatus actual spec.min spec.max }

/-- Function `updateSpec` from src/hooks/useInspection.ts lines 85-93: map over the
list; an entry with a different id is returned unchanged, the matching entry
gets the new actual and a recomputed status. -/
def updateSpec (specs : List InspectionSpec) (id : Int) (actual : Option ℚ) :
    List InspectionSpec :=
  specs.map fun spec =>
    if spec.id ≠ id then spec
    else applySpecValue actual spec

/-- Clearing one template entry inside `resetSpecs`
(src/hooks/useInspection.ts lines 100-104): actual := null, status := pending. -/
def clearSpec (spec : InspectionSpec) : InspectionSpec :=
  { spec with actual := none, status := Status.pending }

/-- Aggregate `passCount` (useInspection.ts line 111). -/
def passCount (specs : List InspectionSpec) : Nat :=
  (specs.filter fun s => s.status = Status.pass).length

/-- Aggregate `failCount` (useInspection.ts line 112). -/
def failCount (specs : List InspectionSpec) : Nat :=
  (specs.filter fun s => s.status = Status.fail).length

/-- Aggregate `pendingCount` (useInspection.ts line 113). -/
def pendingCount (specs : List InspectionSpec) : Nat :=
  (specs.filter fun s => s.status = Status.pending).length

/-- Aggregate `allPassed = passCount === specs.length && specs.length > 0`
(useInspection.ts line 114). -/
def allPassed (specs : List InspectionSpec) : Bool :=
  passCount specs = specs.length && specs.length > 0

/-- Aggregate `hasFailed = failCount > 0` (useInspection.ts line 115). -/
def hasFailed (specs : List InspectionSpec) : Bool :=
  failCount specs > 0

/-- Predicate `hasFailures = inspectionSpecs.some((s) => s.status === "fail")`
(src/unnamed/part_006 line 280). -/
def hasFailures (specs : List InspectionSpec) : Bool :=
  specs.any fun s => s.status = Status.fail

/-- Predicate `allInspected = inspectionSpecs.every((s) => s.actual !== null)`
(src/unnamed/part_006 line 281). -/
def allInspected (specs : List InspectionSpec) : Bool :=
  specs.all fun s => s.actual.isSome

/-- The in-memory state held by the `useInspection` hook together with the
disposition flags (useInspection.ts lines 76-78). -/
structure InspectionState where
  specs : List InspectionSpec
  lotReleased : Bool
  lotRejected : Bool
deriving DecidableEq, Repr

/-- Function `resetSpecs` from src/hooks/useInspection.ts lines 98-108: rebuild the
spec list from the captured `initialSpecs` template (not from the current
list), then clear both disposition flags. -/
def resetSpecs (initialSpecs : List InspectionSpec) (_st : InspectionState) :
    InspectionState :=
  { specs := initialSpecs.map clearSpec
    lotReleased := false
    lotRejected := false }

/-- Toast severity: `toast.error` vs `toast.success` from sonner, as used in
src/unnamed/part_006. -/
inductive ToastKind where
  | errorToast
  | successToast
deriving DecidableEq, Repr

/-- A user-facing notice: message and description, as passed to `toast.*` in
src/unnamed/part_006. -/
structure Toast where
  kind : ToastKind
  message : String
  description : String
deriving DecidableEq, Repr

/-- Result of one `handleApprove` / `handleReject` call: the successor state,
the toasts shown, and how many times `generateCertificatePDF` was invoked. -/
structure DispositionResult where
  state : InspectionState
  toasts : List Toast
  certCalls : Nat
deriving DecidableEq, Repr

/-- The "has failures" rejection toast (src/unnamed/part_006 lines 293-295). -/
def approveFailuresToast : Toast :=
  { kind := ToastKind.errorToast
    message := "Cannot approve: there are out-of-tolerance readings"
    description := "All dimensional inspections must pass before release." }

/-- The "incomplete" rejection toast (src/unnamed/part_006 lines 300-302). -/
def approveIncompleteToast : Toast :=
  { kind := ToastKind.errorToast
    message := "Cannot approve: not all characteristics inspected"
    description := "Please enter actual readings for all characteristics." }

/-- The success toast after certificate generation (part_006 lines 310-313). -/
def approveSuccessToast : Toast :=
  { kind := ToastKind.successToast
    message := "Lot #296039 APPROVED for release"
    description := "Certificate of Conformance generated and downloaded." }

/-- The secondary notice shown when `generateCertificatePDF` throws
(part_006 lines 315-317). -/
def certErrorToast : Toast :=
  { kind := ToastKind.errorToast
    message := "Error generating certificate"
    description := "Please try again or contact support." }

/-- The rejection toast of `handleReject` (part_006 lines 327-329). -/
def rejectToast : Toast :=
  { kind := ToastKind.errorToast
    message := "Lot #296039 REJECTED"
    description := "Non-conformance report will be generated." }

/-- Function `handleApprove` from src/unnamed/part_006 lines 291-322.  Guard order as
in the source: failures first, then completeness; on a passed guard,
`generateCertificatePDF` is called inside try/catch (`genOk` models whether it
throws) and `setLotReleased(true)` runs after the try/catch either way. -/
def handleApprove (genOk : Bool) (st : InspectionState) : DispositionResult :=
  if hasFailures st.specs then
    { state := st, toasts := [approveFailuresToast], certCalls := 0 }
  else if !allInspected st.specs then
    { state := st, toasts := [approveIncompleteToast], certCalls := 0 }
  else if genOk then
    { state := { st with lotReleased := true }
      toasts := [approveSuccessToast], certCalls := 1 }
  else
    { state := { st with lotReleased := true }
      toasts := [certErrorToast], certCalls := 1 }

/-- Function `handleReject` from src/unnamed/part_006 lines 324-330: unconditionally
sets `lotRejected`. -/
def handleReject (st : InspectionState) : DispositionResult :=
  { state := { st with lotRejected := true }
    toasts := [rejectToast]
    certCalls := 0 }

/-- The APPROVE RELEASE user action as reachable through the UI: the Final
Verdict buttons are rendered only in the `Open` branch of the ternary at
src/unnamed/part_006 lines 480-509 (when neither `lotReleased` nor
`lotRejected` is set), so `handleApprove` cannot fire once the lot is
finalized. -/
def approveOp (genOk : Bool) (st : InspectionState) : InspectionState :=
  if st.lotReleased || st.lotRejected then st else (handleApprove genOk st).state

/-- The REJECT LOT user action, gated by the same rendering condition
(src/unnamed/part_006 lines 480-509). -/
def rejectOp (st : InspectionState) : InspectionState :=
  if st.lotReleased || st.lotRejected then st else (handleReject st).state

/-- Function `updateSpec` lifted to the hook state: only the spec list changes
(useInspection.ts lines 85-93 touch no flag). -/
def updateSpecOp (id : Int) (actual : Option ℚ) (st : InspectionState) :
    InspectionState :=
  { st with specs := updateSpec st.specs id actual }

/-- One user-level operation on the inspection session. -/
inductive Op where
  | approve (genOk : Bool)
  | reject
  | update (id : Int) (actual : Option ℚ)
  | reset
deriving DecidableEq, Repr

/-- Apply one operation; `template` is the `initialSpecs` list captured by the
hook, used by `resetSpecs`. -/
def applyOp (template : List InspectionSpec) (st : InspectionState) :
    Op → InspectionState
  | Op.approve genOk => approveOp genOk st
  | Op.reject => rejectOp st
  | Op.update id actual => updateSpecOp id actual st
  | Op.reset => resetSpecs template st

/-- Apply a sequence of operations left to right. -/
def applyOps (template : List InspectionSpec) (st : InspectionState)
    (ops : List Op) : InspectionState :=
  ops.foldl (applyOp template) st

/-- The hook's initial state: `useState(initialSpecs)` with both flags false
(useInspection.ts lines 76-78). -/
def initialState (template : List InspectionSpec) : InspectionState :=
  { specs := template, lotReleased := false, lotRejected := false }

/-- Constant `INITIAL_SPECS` from lib/data (src/unnamed/part_008 lines 296-301 / 415-420). -/
def INITIAL_SPECS : List InspectionSpec :=
  [ { id := 1, characteristic := "Distancia", tool := "Vernier",
      min := 0.47, max := 0.53, actual := none, status := Status.pending },
    { id := 2, characteristic := "Radio", tool := "Vernier",
      min := 0.22, max := 0.28, actual := none, status := Status.pending },
    { id := 3, characteristic := "Diametro Hole", tool := "Pin Gauge",
      min := 0.25, max := 0.31, actual := none, status := Status.pending },
    { id := 4, characteristic := "Angulo", tool := "Protractor",
      min := 44.5, max := 45.5, actual := none, status := Status.pending } ]

/-- Field type tag from `FieldDefinition.type`: "numeric" | "boolean" | "select". -/
inductive FieldType where
  | numeric
  | boolean
  | select
deriving DecidableEq, Repr

/-- A runtime field value: number | boolean | string | null, as carried by
`InspectionValue.value` in the dynamic form. -/
inductive FieldValue where
  | num (v : ℚ)
  | bool (b : Bool)
  | str (s : String)
  | null
deriving DecidableEq, Repr

/-- The number | null view of a value, as produced by the numeric input and
consumed by `validateNumericField` (the `as number | null` cast in
`updateValue`; well-typed because the numeric input only ever supplies a
number or null). -/
def FieldValue.asNum : FieldValue → Option ℚ
  | FieldValue.num v => some v
  | _ => none

/-- The boolean | null view (the `as boolean | null` cast in `updateValue`). -/
def FieldValue.asBool : FieldValue → Option Bool
  | FieldValue.bool b => some b
  | _ => none

/-- The string | null view (the `as string | null` cast in `updateValue`). -/
def FieldValue.asStr : FieldValue → Option String
  | FieldValue.str s => some s
  | _ => none

/-- Structure `FieldDefinition` from lib/data as used by DynamicInspectionForm: id, name,
type, required, optional min/max (numeric only), options (select only), tool. -/
structure FieldDefinition where
  id : String
  name : String
  type : FieldType
  required : Bool
  min : Option ℚ
  max : Option ℚ
  options : List String
  tool : Option String
deriving DecidableEq, Repr

/-- Structure `InspectionValue` from lib/data: fieldId, value, status. -/
structure InspectionValue where
  fieldId : String
  value : FieldValue
  status : Status
deriving DecidableEq, Repr

/-- The test `min !== undefined && value < min` of `validateNumericField`
(DynamicInspectionForm line 100). -/
def minViolated (v : ℚ) (min : Option ℚ) : Bool :=
  match min with
  | some m => decide (v < m)
  | none => false

/-- The test `max !== undefined && value > max` of `validateNumericField`
(DynamicInspectionForm line 101). -/
def maxViolated (v : ℚ) (max : Option ℚ) : Bool :=
  match max with
  | some m => decide (m < v)
  | none => false

/-- Function `validateNumericField` from DynamicInspectionForm lines 94-103:
null → pending; below a defined min → fail; above a defined max → fail;
otherwise pass. -/
def validateNumericField (value : Option ℚ) (min max : Option ℚ) : Status :=
  match value with
  | none => Status.pending
  | some v =>
    if minViolated v min then Status.fail
    else if maxViolated v max then Status.fail
    else Status.pass

/-- Function `validateBooleanField` from DynamicInspectionForm lines 105-108:
null → pending; true → pass; false → fail. -/
def validateBooleanField (value : Option Bool) : Status :=
  match value with
  | none => Status.pending
  | some b => if b then Status.pass else Status.fail

/-- JavaScript truthiness of a string | null value: null and the empty string
are falsy. -/
def truthyStr (value : Option String) : Bool :=
  match value with
  | none => false
  | some s => !decide (s = "")

/-- Function `validateSelectField` from DynamicInspectionForm lines 110-116:
`if (required && (!value || value === "")) return "pending";
return value ? "pass" : "pending"`. -/
def validateSelectField (value : Option String) (required : Bool) : Status :=
  if required && !truthyStr value then Status.pending
  else if truthyStr value then Status.pass else Status.pending

/-- The status switch inside `updateValue` (DynamicInspectionForm lines
142-154): dispatch on the field definition type; `let status = "pending"` is
the (unreachable) default. -/
def computeFieldStatus (field : FieldDefinition) (newValue : FieldValue) : Status :=
  match field.type with
  | FieldType.numeric => validateNumericField newValue.asNum field.min field.max
  | FieldType.boolean => validateBooleanField newValue.asBool
  | FieldType.select => validateSelectField newValue.asStr field.required

/-- The freshly computed Inspection Value pushed by `updateValue`
(DynamicInspectionForm line 157). -/
def freshValue (fieldId : String) (newValue : FieldValue)
    (field : FieldDefinition) : InspectionValue :=
  { fieldId := fieldId
    value := newValue
    status := computeFieldStatus field newValue }

/-- Function `updateValue` from DynamicInspectionForm lines 141-159: compute the status,
drop any existing entry for `fieldId` (`values.filter(v => v.fieldId !==
fieldId)`), then push the fresh entry at the end. -/
def updateValue (values : List InspectionValue) (fieldId : String)
    (newValue : FieldValue) (field : FieldDefinition) : List InspectionValue :=
  (values.filter fun v => v.fieldId ≠ fieldId) ++ [freshValue fieldId newValue field]

/-- The data-model invariant stated in the spec: a stored status is always
the pure function `calculateStatus` of the entry's actual, min and max. -/
def statusCoherent (s : InspectionSpec) : Prop :=
  s.status = calculateStatus s.actual s.min s.max

instance (s : InspectionSpec) : Decidable (statusCoherent s) :=
  inferInstanceAs (Decidable (s.status = calculateStatus s.actual s.min s.max))

/-- A sample characteristic entry used in concrete witnesses. -/
def sampleSpec (i : Int) (lo hi : ℚ) (a : Option ℚ) (st : Status) : InspectionSpec :=
  { id := i, characteristic := "Distancia", tool := "Vernier",
    min := lo, max := hi, actual := a, status := st }

/-- A concrete open session whose single entry failed inspection. -/
def failingOpenState : InspectionState :=
  { specs := [sampleSpec 1 0 2 (some 3) Status.fail]
    lotReleased := false
    lotRejected := false }

/-- A concrete open session whose single entry passed inspection. -/
def allPassOpenState : InspectionState :=
  { specs := [sampleSpec 1 0 2 (some 1) Status.pass]
    lotReleased := false
    lotRejected := false }

/-- The Lot Disposition invariant: at most one of the two terminal flags is
set. -/
def atMostOneFlag (st : InspectionState) : Prop :=
  ¬(st.lotReleased = true ∧ st.lotRejected = true)

instance (st : InspectionState) : Decidable (atMostOneFlag st) :=
  inferInstanceAs (Decidable (¬(st.lotReleased = true ∧ st.lotRejected = true)))

/-- A concrete already-released session. -/
def releasedState : InspectionState :=
  { specs := [], lotReleased := true, lotRejected := false }

/-- A two-entry pending template used in concrete witnesses. -/
def twoSpecTemplate : List InspectionSpec :=
  [sampleSpec 1 0 2 none Status.pending, sampleSpec 2 0 2 none Status.pending]

/-- A sample numeric field definition used in concrete witnesses. -/
def sampleField : FieldDefinition :=
  { id := "f1"
    name := "Torque"
    type := FieldType.numeric
    required := true
    min := some 0
    max := some 2
    options := []
    tool := none }

/-- The id of `sampleField`. -/
def sampleFieldId : String := "f1"

/-- A sample untouched Inspection Value for a different field. -/
def otherValue : InspectionValue :=
  { fieldId := "f0"
    value := FieldValue.null
    status := Status.pending }

theorem statusCoherent_clearSpec (s : InspectionSpec) :
    statusCoherent (clearSpec s) := rfl

theorem handleApprove_state_specs (genOk : Bool) (st : InspectionState) :
    (handleApprove genOk st).state.specs = st.specs := by
  unfold handleApprove
  split
  · rfl
  · split
    · rfl
    · split <;> rfl

theorem approveOp_specs (genOk : Bool) (st : InspectionState) :
    (approveOp genOk st).specs = st.specs := by
  unfold approveOp
  split
  · rfl
  · exact handleApprove_state_specs genOk st

theorem rejectOp_specs (st : InspectionState) :
    (rejectOp st).specs = st.specs := by
  unfold rejectOp
  split <;> rfl

theorem statusCoherent_updateSpec (specs : List InspectionSpec) (id : Int)
    (actual : Option ℚ) (hc : ∀ s ∈ specs, statusCoherent s) :
    ∀ s ∈ updateSpec specs id actual, statusCoherent s := by
  intro s hs
  rw [updateSpec, List.mem_map] at hs
  obtain ⟨t, ht, rfl⟩ := hs
  by_cases hid : t.id ≠ id
  · simpa [hid] using hc t ht
  · simp only [hid, if_false]
    rfl

theorem statusCoherent_applyOp (template : List InspectionSpec)
    (st : InspectionState) (op : Op) (hc : ∀ s ∈ st.specs, statusCoherent s) :
    ∀ s ∈ (applyOp template st op).specs, statusCoherent s := by
  cases op with
  | approve genOk => rw [applyOp, approveOp_specs]; exact hc
  | reject => rw [applyOp, rejectOp_specs]; exact hc
  | update id actual => exact statusCoherent_updateSpec st.specs id actual hc
  | reset =>
      intro s hs
      rw [applyOp, resetSpecs, List.mem_map] at hs
      obtain ⟨t, _, rfl⟩ := hs
      exact statusCoherent_clearSpec t

theorem statusCoherent_applyOps (template : List InspectionSpec)
    (st : InspectionState) (ops : List Op)
    (hc : ∀ s ∈ st.specs, statusCoherent s) :
    ∀ s ∈ (applyOps template st ops).specs, statusCoherent s := by
  induction ops generalizing st with
  | nil => exact hc
  | cons op ops ih =>
      exact ih (applyOp template st op) (statusCoherent_applyOp template st op hc)

/-- C1: for every characteristic specification with bounds min and max and
every entered actual value, `calculateStatus` is Pending exactly when the
actual is absent, Pass exactly when min ≤ actual ≤ max (both inclusive), and
Fail otherwise; and along any sequence of operations from a coherent template
the stored status of every entry is always this pure function of
(actual, min, max). -/
theorem calculateStatus_pure_function (actual : Option ℚ) (lo hi : ℚ)
    (template : List InspectionSpec) (ops : List Op)
    (hcoh : ∀ s ∈ template, statusCoherent s) :
    (calculateStatus actual lo hi = Status.pending ↔ actual = none)
    ∧ (calculateStatus actual lo hi = Status.pass ↔
        ∃ a, actual = some a ∧ lo ≤ a ∧ a ≤ hi)
    ∧ (calculateStatus actual lo hi = Status.fail ↔
        ∃ a, actual = some a ∧ ¬(lo ≤ a ∧ a ≤ hi))
    ∧ (∀ s ∈ (applyOps template (initialState template) ops).specs,
        s.status = calculateStatus s.actual s.min s.max) := by
  refine ⟨?_, ?_, ?_, statusCoherent_applyOps template (initialState template) ops hcoh⟩
  · cases actual with
    | none => simp [calculateStatus]
    | some a =>
        by_cases h : lo ≤ a ∧ a ≤ hi
        · simp [calculateStatus, if_pos h]
        · simp [calculateStatus, if_neg h]
  · cases actual with
    | none => simp [calculateStatus]
    | some a =>
        by_cases h : lo ≤ a ∧ a ≤ hi
        · simp [calculateStatus, if_pos h, h.1, h.2]
        · simp only [calculateStatus, if_neg h]
          simp only [Status.fail, Option.some.injEq]
          constructor
          · intro hx; exact absurd hx (by simp)
          · rintro ⟨a1, ha1, hla, hah⟩
            cases ha1
            exact absurd ⟨hla, hah⟩ h
  · cases actual with
    | none => simp [calculateStatus]
    | some a =>
        by_cases h : lo ≤ a ∧ a ≤ hi
        · simp only [calculateStatus, if_pos h]
          simp [h.1, h.2]
        · simp only [calculateStatus, if_neg h]
          simp [h]
          exact fun hla => lt_of_not_le fun hle => h ⟨hla, hle⟩

/-- Witness for C1 at concrete inputs: the shipped `INITIAL_SPECS` template is
coherent, and after an update the invariant conclusion holds for it. -/
theorem calculateStatus_pure_function_witness :
    (∀ s ∈ INITIAL_SPECS, statusCoherent s)
    ∧ (∀ s ∈ (applyOps INITIAL_SPECS (initialState INITIAL_SPECS)
          [Op.update 1 (some 1)]).specs,
        s.status = calculateStatus s.actual s.min s.max) :=
  ⟨by decide,
   (calculateStatus_pure_function (some 1) 0 2 INITIAL_SPECS
      [Op.update 1 (some 1)] (by decide)).2.2.2⟩

/-- C5: for a numeric dynamic field whose value is present, the status is Pass
iff (min is undefined OR value ≥ min) AND (max is undefined OR value ≤ max),
else Fail — the two bounds are optional and independently checked — and an
absent value yields Pending regardless of the bounds. -/
theorem validateNumericField_optional_bounds (v : ℚ) (lo hi : Option ℚ) :
    validateNumericField none lo hi = Status.pending
    ∧ (validateNumericField (some v) lo hi = Status.pass ↔
        ((lo = none ∨ ∃ m, lo = some m ∧ m ≤ v)
          ∧ (hi = none ∨ ∃ m, hi = some m ∧ v ≤ m)))
    ∧ (validateNumericField (some v) lo hi = Status.fail ↔
        ¬((lo = none ∨ ∃ m, lo = some m ∧ m ≤ v)
          ∧ (hi = none ∨ ∃ m, hi = some m ∧ v ≤ m))) := by
  have hsome : validateNumericField (some v) lo hi =
      if minViolated v lo || maxViolated v hi then Status.fail else Status.pass := by
    simp only [validateNumericField]
    cases h1 : minViolated v lo <;> cases h2 : maxViolated v hi <;> simp
  have hlo : minViolated v lo = false ↔ (lo = none ∨ ∃ m, lo = some m ∧ m ≤ v) := by
    cases lo <;> simp [minViolated]
  have hhi : maxViolated v hi = false ↔ (hi = none ∨ ∃ m, hi = some m ∧ v ≤ m) := by
    cases hi <;> simp [maxViolated]
  refine ⟨rfl, ?_, ?_⟩
  · rw [hsome]
    cases h1 : minViolated v lo <;> cases h2 : maxViolated v hi <;>
      simp_all [← hlo, ← hhi]
  · rw [hsome]
    cases h1 : minViolated v lo <;> cases h2 : maxViolated v hi <;>
      simp_all [← hlo, ← hhi]

/-- C6: for a select dynamic field, choosing any non-empty value yields Pass;
a required field with no value chosen yields Pending (not Fail); and a field
that is not required with no value chosen also resolves to Pending rather
than Pass.  (The empty string counts as no value chosen, as in the source's
truthiness test.) -/
theorem validateSelectField_statuses (s : String) (required : Bool) :
    (validateSelectField (some s) required
      = if s = "" then Status.pending else Status.pass)
    ∧ validateSelectField none required = Status.pending := by
  constructor
  · by_cases h : s = "" <;> cases required <;>
      simp [validateSelectField, truthyStr, h]
  · cases required <;> rfl

theorem hasFailures_false_iff (specs : List InspectionSpec) :
    hasFailures specs = false ↔ ∀ s ∈ specs, s.status ≠ Status.fail := by
  simp [hasFailures]

theorem allInspected_true_iff (specs : List InspectionSpec) :
    allInspected specs = true ↔ ∀ s ∈ specs, s.actual ≠ none := by
  simp [allInspected, Option.isSome_iff_ne_none]

theorem statusCoherent_pending_actual (s : InspectionSpec)
    (hc : statusCoherent s) (hp : s.status = Status.pending) : s.actual = none := by
  rw [statusCoherent] at hc
  cases ha : s.actual with
  | none => rfl
  | some a =>
      rw [ha] at hc
      rw [hc] at hp
      by_cases h : s.min ≤ a ∧ a ≤ s.max
      · simp only [calculateStatus, if_pos h] at hp
        cases hp
      · simp only [calculateStatus, if_neg h] at hp
        cases hp

/-- C2: an attempted Open → Released transition is rejected — not a crash —
with a distinct user-facing reason for each guard failure: the "has failures"
toast when any entry is Fail, and the "incomplete" toast when no entry is Fail
but some entry is Pending; on a rejected attempt the state (hence the
un-released lot) is unchanged, and the transition succeeds exactly when every
entry has an actual value and no entry is Fail. -/
theorem handleApprove_guard_rejections (genOk : Bool) (st : InspectionState)
    (hopen : st.lotReleased = false)
    (hcoh : ∀ s ∈ st.specs, statusCoherent s) :
    ((∃ s ∈ st.specs, s.status = Status.fail) →
      (handleApprove genOk st).state = st
        ∧ (handleApprove genOk st).toasts = [approveFailuresToast])
    ∧ ((∀ s ∈ st.specs, s.status ≠ Status.fail) →
        (∃ s ∈ st.specs, s.status = Status.pending) →
      (handleApprove genOk st).state = st
        ∧ (handleApprove genOk st).toasts = [approveIncompleteToast])
    ∧ approveFailuresToast ≠ approveIncompleteToast
    ∧ ((handleApprove genOk st).state.lotReleased = true ↔
        ((∀ s ∈ st.specs, s.actual ≠ none)
          ∧ (∀ s ∈ st.specs, s.status ≠ Status.fail))) := by
  refine ⟨?_, ?_, ?_, ?_⟩
  · intro hex
    have hf : hasFailures st.specs = true := by
      simp [hasFailures]
      exact hex
    rw [handleApprove, if_pos hf]
    exact ⟨rfl, rfl⟩
  · intro hnf hpend
    have hf : hasFailures st.specs = false := (hasFailures_false_iff st.specs).mpr hnf
    obtain ⟨s, hs, hps⟩ := hpend
    have hnone : s.actual = none := statusCoherent_pending_actual s (hcoh s hs) hps
    have hai : allInspected st.specs = false := by
      cases hx : allInspected st.specs with
      | false => rfl
      | true => exact absurd hnone ((allInspected_true_iff st.specs).mp hx s hs)
    rw [handleApprove, if_neg (by simp [hf]), if_pos (by simp [hai])]
    exact ⟨rfl, rfl⟩
  · intro h
    have : approveFailuresToast.message = approveIncompleteToast.message := by rw [h]
    simp [approveFailuresToast, approveIncompleteToast] at this
  · cases hf : hasFailures st.specs with
    | true =>
        rw [handleApprove, if_pos hf]
        simp only [hopen]
        constructor
        · intro hx; cases hx
        · rintro ⟨_, hnofail⟩
          exact absurd hf (by simpa [hasFailures_false_iff] using hnofail)
    | false =>
        cases hai : allInspected st.specs with
        | false =>
            rw [handleApprove, if_neg (by simp [hf]), if_pos (by simp [hai])]
            simp only [hopen]
            constructor
            · intro hx; cases hx
            · rintro ⟨hins, _⟩
              rw [show allInspected st.specs = true from
                (allInspected_true_iff st.specs).mpr hins] at hai
              cases hai
        | true =>
            rw [handleApprove, if_neg (by simp [hf]), if_neg (by simp [hai])]
            have hres : (if genOk then
                ({ state := { st with lotReleased := true },
                   toasts := [approveSuccessToast], certCalls := 1 } : DispositionResult)
              else
                { state := { st with lotReleased := true },
                  toasts := [certErrorToast], certCalls := 1 }).state.lotReleased = true := by
              cases genOk <;> rfl
            rw [hres]
            simp only [true_iff]
            exact ⟨(allInspected_true_iff st.specs).mp hai,
                   (hasFailures_false_iff st.specs).mp hf⟩

/-- Witness for C2: a concrete open state with one failing entry is rejected
with the "has failures" toast. -/
theorem handleApprove_guard_rejections_witness :
    failingOpenState.lotReleased = false
    ∧ (∀ s ∈ failingOpenState.specs, statusCoherent s)
    ∧ ((∃ s ∈ failingOpenState.specs, s.status = Status.fail) →
        (handleApprove true failingOpenState).state = failingOpenState
        ∧ (handleApprove true failingOpenState).toasts = [approveFailuresToast]) :=
  ⟨rfl, by decide,
   (handleApprove_guard_rejections true failingOpenState rfl (by decide)).1⟩

/-- C9: when both release guards hold, the transition completes even if
certificate generation throws — `lotReleased` becomes true and the failure is
reported separately by the certificate-error toast — and certificate
generation is invoked exactly once per successful release. -/
theorem certificate_failure_nonblocking (genOk : Bool) (st : InspectionState)
    (hnf : hasFailures st.specs = false) (hai : allInspected st.specs = true) :
    ((handleApprove false st).state.lotReleased = true
      ∧ (handleApprove false st).toasts = [certErrorToast])
    ∧ ((handleApprove genOk st).state.lotReleased = true
      ∧ (handleApprove genOk st).certCalls = 1) := by
  refine ⟨⟨?_, ?_⟩, ?_, ?_⟩ <;>
    cases genOk <;>
      simp [handleApprove, hnf, hai]

/-- Witness for C9: a concrete fully-inspected all-pass state releases with
one certificate call even when generation throws. -/
theorem certificate_failure_nonblocking_witness :
    hasFailures allPassOpenState.specs = false
    ∧ allInspected allPassOpenState.specs = true
    ∧ ((handleApprove false allPassOpenState).state.lotReleased = true
      ∧ (handleApprove false allPassOpenState).toasts = [certErrorToast]) :=
  ⟨by decide, by decide,
   (certificate_failure_nonblocking false allPassOpenState
      (by decide) (by decide)).1⟩

/-- C3 counterexample: with zero specifications the Open → Released transition
IS permitted, contrary to the claim — on the empty list both approve guards
hold vacuously and the (UI-gated) approve action releases the lot, even though
`allPassed` is false. -/
theorem vacuous_release_counterexample :
    allPassed [] = false
    ∧ (approveOp true (initialState [])).lotReleased = true := by
  exact ⟨rfl, rfl⟩

/-- C3 (amended): with an empty specification list `allPassed` is false, but a
vacuous release is NOT prevented: when there are zero specifications the
approve guards (`hasFailures` false, `allInspected` true) hold vacuously and
the Open → Released transition succeeds. -/
theorem allPassed_empty_vacuous_release (genOk : Bool) :
    allPassed [] = false
    ∧ hasFailures [] = false
    ∧ allInspected [] = true
    ∧ (approveOp genOk (initialState [])).lotReleased = true := by
  cases genOk <;> exact ⟨rfl, rfl, rfl, rfl⟩

theorem handleApprove_state_lotRejected (genOk : Bool) (st : InspectionState) :
    (handleApprove genOk st).state.lotRejected = st.lotRejected := by
  unfold handleApprove
  split
  · rfl
  · split
    · rfl
    · split <;> rfl

theorem updateSpecOp_flags (id : Int) (actual : Option ℚ) (st : InspectionState) :
    (updateSpecOp id actual st).lotReleased = st.lotReleased
    ∧ (updateSpecOp id actual st).lotRejected = st.lotRejected :=
  ⟨rfl, rfl⟩

theorem atMostOneFlag_applyOp (template : List InspectionSpec)
    (st : InspectionState) (op : Op) (h : atMostOneFlag st) :
    atMostOneFlag (applyOp template st op) := by
  cases op with
  | approve genOk =>
      show atMostOneFlag (approveOp genOk st)
      unfold approveOp
      split
      · exact h
      · rename_i hgate
        have hboth : st.lotReleased = false ∧ st.lotRejected = false := by
          simpa using hgate
        intro hc
        rw [handleApprove_state_lotRejected genOk st, hboth.2] at hc
        cases hc.2
  | reject =>
      show atMostOneFlag (rejectOp st)
      unfold rejectOp
      split
      · exact h
      · rename_i hgate
        have hboth : st.lotReleased = false ∧ st.lotRejected = false := by
          simpa using hgate
        intro hc
        have hsame : (handleReject st).state.lotReleased = st.lotReleased := rfl
        rw [hsame, hboth.1] at hc
        cases hc.1
  | update id actual =>
      intro hc
      exact h hc
  | reset =>
      intro hc
      cases hc.1

theorem atMostOneFlag_applyOps (template : List InspectionSpec)
    (st : InspectionState) (ops : List Op) (h : atMostOneFlag st) :
    atMostOneFlag (applyOps template st ops) := by
  induction ops generalizing st with
  | nil => exact h
  | cons op ops ih =>
      exact ih (applyOp template st op) (atMostOneFlag_applyOp template st op h)

/-- C4: at most one of `lotReleased` and `lotRejected` is true in every state
reachable from the initial state; every operation preserves the invariant;
once either flag is true any operation other than a full reset keeps it true;
and a reset clears both flags. -/
theorem lot_disposition_invariant (template : List InspectionSpec) :
    (∀ ops, atMostOneFlag (applyOps template (initialState template) ops))
    ∧ (∀ st op, atMostOneFlag st → atMostOneFlag (applyOp template st op))
    ∧ (∀ st op, op ≠ Op.reset →
        (st.lotReleased = true → (applyOp template st op).lotReleased = true)
          ∧ (st.lotRejected = true → (applyOp template st op).lotRejected = true))
    ∧ (∀ st, (applyOp template st Op.reset).lotReleased = false
          ∧ (applyOp template st Op.reset).lotRejected = false) := by
  refine ⟨?_, atMostOneFlag_applyOp template, ?_, fun st => ⟨rfl, rfl⟩⟩
  · intro ops
    exact atMostOneFlag_applyOps template (initialState template) ops
      (by intro hc; cases hc.1)
  · intro st op hne
    cases op with
    | approve genOk =>
        constructor
        · intro hrel
          show (approveOp genOk st).lotReleased = true
          unfold approveOp
          rw [if_pos (by simp [hrel])]
          exact hrel
        · intro hrej
          show (approveOp genOk st).lotRejected = true
          unfold approveOp
          rw [if_pos (by simp [hrej])]
          exact hrej
    | reject =>
        constructor
        · intro hrel
          show (rejectOp st).lotReleased = true
          unfold rejectOp
          rw [if_pos (by simp [hrel])]
          exact hrel
        · intro hrej
          show (rejectOp st).lotRejected = true
          unfold rejectOp
          rw [if_pos (by simp [hrej])]
          exact hrej
    | update id actual => exact ⟨fun hrel => hrel, fun hrej => hrej⟩
    | reset => exact absurd rfl hne

/-- Witness for C4: concrete runs of the operations preserve the invariant,
a finalized flag persists under a non-reset operation, and a reset clears. -/
theorem lot_disposition_invariant_witness :
    atMostOneFlag (applyOps [] (initialState []) [Op.approve true, Op.reject])
    ∧ atMostOneFlag (applyOp [] allPassOpenState Op.reject)
    ∧ (applyOp [] releasedState Op.reject).lotReleased = true
    ∧ (applyOp [] releasedState Op.reset).lotReleased = false :=
  ⟨(lot_disposition_invariant []).1 [Op.approve true, Op.reject],
   (lot_disposition_invariant []).2.1 allPassOpenState Op.reject (by decide),
   ((lot_disposition_invariant []).2.2.1 releasedState Op.reject (by decide)).1 rfl,
   ((lot_disposition_invariant []).2.2.2 releasedState).1⟩

/-- C7: `updateValue` has remove-then-insert semantics: it is idempotent, the
updated field's single stored entry is the freshly computed one, it sits at
the end of the list (insertion order of edits), entries for other fields are
kept, and distinctness of fieldIds is preserved. -/
theorem updateValue_remove_then_insert (values : List InspectionValue)
    (fieldId : String) (newValue : FieldValue) (field : FieldDefinition) :
    updateValue (updateValue values fieldId newValue field) fieldId newValue field
      = updateValue values fieldId newValue field
    ∧ (updateValue values fieldId newValue field).filter
        (fun v => v.fieldId = fieldId) = [freshValue fieldId newValue field]
    ∧ (updateValue values fieldId newValue field).getLast?
      = some (freshValue fieldId newValue field)
    ∧ (∀ v ∈ values, v.fieldId ≠ fieldId →
        v ∈ updateValue values fieldId newValue field)
    ∧ ((values.map InspectionValue.fieldId).Nodup →
        ((updateValue values fieldId newValue field).map
          InspectionValue.fieldId).Nodup) := by
  refine ⟨?_, ?_, ?_, ?_, ?_⟩
  · rw [updateValue, updateValue, List.filter_append, List.filter_filter]
    simp [freshValue]
  · rw [updateValue, List.filter_append, List.filter_filter]
    simp [freshValue]
  · rw [updateValue]
    simp
  · intro v hv hne
    rw [updateValue]
    exact List.mem_append_left _ (List.mem_filter.mpr ⟨hv, by simpa using hne⟩)
  · intro hnd
    rw [updateValue, List.map_append, List.nodup_append]
    refine ⟨?_, ?_, ?_⟩
    · exact List.Nodup.sublist (List.Sublist.map _ (List.filter_sublist _)) hnd
    · simp [freshValue]
    · intro a ha hb
      simp only [freshValue, List.map_cons, List.map_nil, List.mem_singleton] at hb
      rw [List.mem_map] at ha
      obtain ⟨v, hv, rfl⟩ := ha
      have := (List.mem_filter.mp hv).2
      simp at this
      exact this hb

/-- Witness for C7: updating a one-entry value list for a different field
preserves fieldId distinctness and keeps the untouched entry. -/
theorem updateValue_remove_then_insert_witness :
    ([otherValue].map InspectionValue.fieldId).Nodup
    ∧ ((updateValue [otherValue] sampleFieldId (FieldValue.num 1)
        sampleField).map InspectionValue.fieldId).Nodup :=
  ⟨by decide,
   (updateValue_remove_then_insert [otherValue] sampleFieldId (FieldValue.num 1)
      sampleField).2.2.2.2 (by decide)⟩

/-- C8: `resetSpecs` restores every entry to an absent actual and Pending
status from the original template (its result is independent of the current
state), clears both disposition flags, and is idempotent. -/
theorem resetSpecs_idempotent_template (initialSpecs : List InspectionSpec)
    (st st2 : InspectionState) :
    resetSpecs initialSpecs (resetSpecs initialSpecs st) = resetSpecs initialSpecs st
    ∧ resetSpecs initialSpecs st = resetSpecs initialSpecs st2
    ∧ (∀ s ∈ (resetSpecs initialSpecs st).specs,
        s.actual = none ∧ s.status = Status.pending)
    ∧ (∀ (k : Nat) (spec : InspectionSpec), initialSpecs[k]? = some spec →
        (resetSpecs initialSpecs st).specs[k]? = some (clearSpec spec))
    ∧ (resetSpecs initialSpecs st).lotReleased = false
    ∧ (resetSpecs initialSpecs st).lotRejected = false := by
  refine ⟨rfl, rfl, ?_, ?_, rfl, rfl⟩
  · intro s hs
    simp only [resetSpecs] at hs
    rw [List.mem_map] at hs
    obtain ⟨t, _, rfl⟩ := hs
    exact ⟨rfl, rfl⟩
  · intro k spec hk
    simp only [resetSpecs]
    rw [List.getElem?_map, hk]
    rfl

/-- Witness for C8 at a concrete template and two different current states. -/
theorem resetSpecs_idempotent_template_witness :
    resetSpecs allPassOpenState.specs
        (resetSpecs allPassOpenState.specs failingOpenState)
      = resetSpecs allPassOpenState.specs failingOpenState
    ∧ (resetSpecs allPassOpenState.specs failingOpenState).specs[0]?
      = some (clearSpec (sampleSpec 1 0 2 (some 1) Status.pass)) :=
  ⟨(resetSpecs_idempotent_template allPassOpenState.specs failingOpenState
      failingOpenState).1,
   (resetSpecs_idempotent_template allPassOpenState.specs failingOpenState
      failingOpenState).2.2.2.1 0 (sampleSpec 1 0 2 (some 1) Status.pass) rfl⟩

/-- C10: `updateSpec` replaces only the entry whose id matches (with the
recomputed value), leaves every other position unchanged, preserves the list
length, and is a silent no-op when no entry has that id. -/
theorem updateSpec_frame (specs : List InspectionSpec) (sid : Int)
    (actual : Option ℚ) :
    (updateSpec specs sid actual).length = specs.length
    ∧ (∀ (k : Nat) (s : InspectionSpec), specs[k]? = some s → s.id ≠ sid →
        (updateSpec specs sid actual)[k]? = some s)
    ∧ (∀ (k : Nat) (s : InspectionSpec), specs[k]? = some s → s.id = sid →
        (updateSpec specs sid actual)[k]? = some (applySpecValue actual s))
    ∧ ((∀ s ∈ specs, s.id ≠ sid) → updateSpec specs sid actual = specs) := by
  refine ⟨?_, ?_, ?_, ?_⟩
  · simp [updateSpec]
  · intro k s hk hne
    rw [updateSpec, List.getElem?_map, hk]
    simp [hne]
  · intro k s hk hs
    rw [updateSpec, List.getElem?_map, hk]
    simp [hs]
  · intro h
    rw [updateSpec]
    have hid : ∀ s ∈ specs,
        (if s.id ≠ sid then s else applySpecValue actual s) = id s := by
      intro s hs
      rw [if_pos (h s hs)]
      rfl
    exact (List.map_congr_left hid).trans (List.map_id specs)

/-- Witness for C10 at a concrete two-entry list: length preserved, the
non-matching entry untouched, and an unknown id is a no-op. -/
theorem updateSpec_frame_witness :
    (updateSpec twoSpecTemplate 2 (some 1)).length = twoSpecTemplate.length
    ∧ (updateSpec twoSpecTemplate 2 (some 1))[0]?
      = some (sampleSpec 1 0 2 none Status.pending)
    ∧ updateSpec twoSpecTemplate 99 (some 1) = twoSpecTemplate :=
  ⟨(updateSpec_frame twoSpecTemplate 2 (some 1)).1,
   (updateSpec_frame twoSpecTemplate 2 (some 1)).2.1 0
      (sampleSpec 1 0 2 none Status.pending) rfl (by decide),
   (updateSpec_frame twoSpecTemplate 99 (some 1)).2.2.2 (by decide)⟩
